import Mathlib

/-
Verification development for the network-monitor-hub repository.

The repository contains a log-analysis pipeline (Log-Analyzer) and a React
frontend (Network_Monitor).  The pipeline's Python sources are not part of the
checked-out tree (only their documentation is), so the pipeline components are
modelled from the specification.  The frontend component ApplyUciModal.js and
the status-page script parsePrometheusText are embedded from their sources.

Layout: all definitions first, then the theorems.
-/

namespace LogAnalyzer

/-- Modelled from the spec: the ActionResult action enum.  Missing source:
Log-Analyzer/log_analyzer/output/command_publisher.py.  The spec gives
the shape enum SetConfig, ... with possibly further variants. -/
inductive ActionKind where
  | setConfig
  | other (tag : String)
deriving DecidableEq

/-- Modelled from the spec: an ActionResult is
action, targetDeviceId, commands (ordered sequence of strings). -/
structure ActionResult where
  action : ActionKind
  targetDeviceId : String
  commands : List String
deriving DecidableEq

/-- Character-list prefix test (same meaning as String.isPrefixOf, stated on
the character lists so that it evaluates by kernel reduction). -/
def strIsPrefixOf (p s : String) : Bool :=
  p.toList.isPrefixOf s.toList

/-- Modelled from the spec: a command passes the allow-list check when it
matches some configured allow-listed prefix. -/
def commandAllowed (allowList : List String) (cmd : String) : Bool :=
  allowList.any (fun p => strIsPrefixOf p cmd)

/-- Observable effects of one call to the Command Output Gate: the transport
messages published (topic, payload) in order, the logged rejection (offending
command, targetDeviceId) if any, and the published/rejected counters. -/
structure PublishEffects where
  messages : List (String × String)
  rejectedLog : Option (String × String)
  publishedCount : Nat
  rejectedCount : Nat
deriving DecidableEq

/-- Modelled from the spec: publish of the Command Output Gate.  Missing
source: command_publisher.py.  Only action == SetConfig is eligible; every
command is checked against the allow-list; validation fails closed (any
failing command rejects the whole batch, logged with the offending command
and targetDeviceId); on success each command is published individually, in
order, to outputPrefix/targetDeviceId. -/
def publish (allowList : List String) (outputPrefix : String) (r : ActionResult) :
    PublishEffects :=
  match r.action with
  | .setConfig =>
    match r.commands.find? (fun c => ! commandAllowed allowList c) with
    | some bad =>
      { messages := [], rejectedLog := some (bad, r.targetDeviceId),
        publishedCount := 0, rejectedCount := 1 }
    | none =>
      { messages := r.commands.map (fun c => (outputPrefix ++ "/" ++ r.targetDeviceId, c)),
        rejectedLog := none, publishedCount := r.commands.length, rejectedCount := 0 }
  | .other _ =>
    { messages := [], rejectedLog := none, publishedCount := 0, rejectedCount := 0 }

/-- Modelled from the spec: UTF-8 decoding of the raw payload bytes, following
RFC 3629 (lead-byte classes, continuation-byte checks, overlong, surrogate and
range rejection).  Missing source: parsing/parser.py uses Python bytes.decode. -/
def utf8Decode : List Nat → Option (List Char)
  | [] => some []
  | b :: rest =>
    if b < 0x80 then
      (utf8Decode rest).map (fun cs => Char.ofNat b :: cs)
    else if b < 0xC2 then none
    else if b < 0xE0 then
      match rest with
      | c1 :: rest1 =>
        if 0x80 ≤ c1 ∧ c1 < 0xC0 then
          (utf8Decode rest1).map (fun cs => Char.ofNat ((b - 0xC0) * 0x40 + (c1 - 0x80)) :: cs)
        else none
      | _ => none
    else if b < 0xF0 then
      match rest with
      | c1 :: c2 :: rest2 =>
        if (0x80 ≤ c1 ∧ c1 < 0xC0) ∧ (0x80 ≤ c2 ∧ c2 < 0xC0) then
          let cp := (b - 0xE0) * 0x1000 + (c1 - 0x80) * 0x40 + (c2 - 0x80)
          if 0x800 ≤ cp ∧ ¬ (0xD800 ≤ cp ∧ cp ≤ 0xDFFF) then
            (utf8Decode rest2).map (fun cs => Char.ofNat cp :: cs)
          else none
        else none
      | _ => none
    else if b < 0xF5 then
      match rest with
      | c1 :: c2 :: c3 :: rest3 =>
        if (0x80 ≤ c1 ∧ c1 < 0xC0) ∧ (0x80 ≤ c2 ∧ c2 < 0xC0) ∧ (0x80 ≤ c3 ∧ c3 < 0xC0) then
          let cp := (b - 0xF0) * 0x40000 + (c1 - 0x80) * 0x1000 + (c2 - 0x80) * 0x40 + (c3 - 0x80)
          if 0x10000 ≤ cp ∧ cp ≤ 0x10FFFF then
            (utf8Decode rest3).map (fun cs => Char.ofNat cp :: cs)
          else none
        else none
      | _ => none
    else none

/-- UTF-8 decoding to a string; none when the bytes are not valid UTF-8. -/
def utf8DecodeString (raw : List Nat) : Option String :=
  (utf8Decode raw).map String.mk

/-- Modelled from the spec: a ParsingRule is name, pattern, fieldMap and
logTypeTag.  The compiled regular expression is abstracted by its matching
function: on a full-line match it returns the named capture groups as
(group name, captured text) pairs, otherwise none.
Missing source: parsing/parser.py. -/
structure ParsingRule where
  name : String
  pattern : String → Option (List (String × String))
  fieldMap : List (String × String)
  logTypeTag : String

/-- Modelled from the spec: a ParsedRecord carries the mapped fields as an
open mapping plus the always-attached ruleName, topic and rawLog. -/
structure ParsedRecord where
  fields : List (String × String)
  ruleName : String
  topic : String
  rawLog : String
deriving DecidableEq

/-- Modelled from the spec: the two parse failure modes. -/
inductive ParseError where
  | decodeError
  | noRuleMatched
deriving DecidableEq

/-- Modelled from the spec: rules are tried in declaration order and the first
whose pattern matches wins; returns that rule with its capture groups. -/
def firstMatch : List ParsingRule → String → Option (ParsingRule × List (String × String))
  | [], _ => none
  | r :: rs, line =>
    match r.pattern line with
    | some caps => some (r, caps)
    | none => firstMatch rs line

/-- Modelled from the spec: every named capture group is copied into the
record's field mapping through the rule's fieldMap; unmapped groups are
ignored. -/
def mapCaptures (fieldMap : List (String × String)) (caps : List (String × String)) :
    List (String × String) :=
  caps.filterMap (fun gv => (fieldMap.lookup gv.1).map (fun out => (out, gv.2)))

/-- Modelled from the spec: parse(raw, topic).  Decode failure signals
DecodeError; no matching rule signals NoRuleMatchedError; on a match the
record gets the mapped captures plus ruleName, topic and rawLog. -/
def parse (rules : List ParsingRule) (raw : List Nat) (topic : String) :
    Except ParseError ParsedRecord :=
  match utf8DecodeString raw with
  | none => .error .decodeError
  | some line =>
    match firstMatch rules line with
    | none => .error .noRuleMatched
    | some (r, caps) =>
      .ok { fields := mapCaptures r.fieldMap caps, ruleName := r.name,
            topic := topic, rawLog := line }

/-- Counters kept by the ingestion stage (received, parsed, failed by reason). -/
structure IngestCounters where
  received : Nat
  parsedOk : Nat
  decodeFailed : Nat
  noMatchFailed : Nat
deriving DecidableEq

/-- Modelled from the spec: handling of one inbound raw message.  A parse
error is terminal for that single message: the matching failure counter is
incremented and the message is dropped (the record queue is unchanged). -/
def handleIncoming (rules : List ParsingRule) (st : IngestCounters × List ParsedRecord)
    (msg : List Nat × String) : IngestCounters × List ParsedRecord :=
  let c := { st.1 with received := st.1.received + 1 }
  match parse rules msg.1 msg.2 with
  | .ok pr => ({ c with parsedOk := c.parsedOk + 1 }, st.2 ++ [pr])
  | .error .decodeError => ({ c with decodeFailed := c.decodeFailed + 1 }, st.2)
  | .error .noRuleMatched => ({ c with noMatchFailed := c.noMatchFailed + 1 }, st.2)

/-- Modelled from the spec: the ingestion loop processes every inbound
message in order; errors never stop the pipeline. -/
def runIngestion (rules : List ParsingRule) (msgs : List (List Nat × String))
    (st : IngestCounters × List ParsedRecord) : IngestCounters × List ParsedRecord :=
  msgs.foldl (handleIncoming rules) st

/-- Sample rule used in concrete witnesses: matches lines that start with
the word dropbear. -/
def dropbearRule : ParsingRule :=
  { name := "dropbear"
    pattern := fun line => if strIsPrefixOf "dropbear" line then some [("msg", line)] else none
    fieldMap := [("msg", "message")]
    logTypeTag := "auth" }

/-- Sample rule used in concrete witnesses: matches one fixed cron line and
captures host, proc, msg and an extra group that the fieldMap does not map. -/
def cronRule : ParsingRule :=
  { name := "cron"
    pattern := fun line =>
      if line = "Jan 1 00:00:00 host1 cron[123]: job started" then
        some [("host", "host1"), ("proc", "cron"), ("msg", "job started"), ("extra", "x")]
      else none
    fieldMap := [("host", "host"), ("proc", "processName"), ("msg", "message")]
    logTypeTag := "cron" }

/-- Modelled from the spec: an analyzer plugin is polymorphic over the
capability set name() and analyze(record) returning an optional ActionResult;
a raised exception is modelled as the error branch of Except.
Missing source: analysis/base_analyzer.py and analyzer_manager.py. -/
structure AnalyzerPlugin where
  name : String
  analyze : ParsedRecord → Except String (Option ActionResult)

/-- Outcome of dispatching one record to the enabled analyzers: the collected
non-nil ActionResults in configuration order, and the error log entries
(analyzer name, record ruleName, error text). -/
structure DispatchOutcome where
  results : List ActionResult
  errorLogs : List (String × String × String)
deriving DecidableEq

/-- Modelled from the spec: the Analysis Dispatcher invokes analyze of every
enabled analyzer in configuration order on the record.  Each invocation is
isolated: an error is caught and logged with the analyzer's name and the
record's ruleName, and the remaining analyzers still run. -/
def runAnalyzers (analyzers : List AnalyzerPlugin) (pr : ParsedRecord) : DispatchOutcome :=
  match analyzers with
  | [] => { results := [], errorLogs := [] }
  | a :: rest =>
    let tail := runAnalyzers rest pr
    match a.analyze pr with
    | .error e =>
      { results := tail.results, errorLogs := (a.name, pr.ruleName, e) :: tail.errorLogs }
    | .ok none => tail
    | .ok (some ar) => { results := ar :: tail.results, errorLogs := tail.errorLogs }

/-- Modelled from the spec: a dispatcher worker processes records one after
the other; analyzer errors never stop it from processing further records. -/
def processRecords (analyzers : List AnalyzerPlugin) (recs : List ParsedRecord) :
    List DispatchOutcome :=
  recs.map (runAnalyzers analyzers)

/-- Modelled from the spec: a bounded inter-stage queue with its
dropped-due-to-backpressure counter.  Missing source: the queue wiring in
core/main.py. -/
structure BoundedQueue (α : Type) where
  capacity : Nat
  items : List α
  droppedCount : Nat
deriving DecidableEq

/-- Modelled from the spec: offering an item to a bounded queue under the
bounded-wait-then-drop policy, modelled as the atomic outcome of the wait:
enqueue when there is room, otherwise drop the item and count it. -/
def offer {α : Type} (q : BoundedQueue α) (x : α) : BoundedQueue α :=
  if q.items.length < q.capacity then { q with items := q.items ++ [x] }
  else { q with droppedCount := q.droppedCount + 1 }

/-- JSON string escaping of one character (quote and backslash get a
backslash escape, every other character is kept). -/
def escapeChar (c : Char) : List Char :=
  if c = '"' then ['\\', '"']
  else if c = '\\' then ['\\', '\\']
  else [c]

/-- JSON string escaping of a character list. -/
def escapeChars : List Char → List Char
  | [] => []
  | c :: t => escapeChar c ++ escapeChars t

/-- Rendering of one key/value pair as a quoted JSON member. -/
def renderPairChars (p : String × String) : List Char :=
  '"' :: (escapeChars p.1.data ++ '"' :: ':' :: '"' :: (escapeChars p.2.data ++ ['"']))

/-- Rendering of a pair list as comma-separated JSON members. -/
def renderPairsChars : List (String × String) → List Char
  | [] => []
  | [p] => renderPairChars p
  | p :: q :: t => renderPairChars p ++ ',' :: renderPairsChars (q :: t)

/-- Ordered insertion of a pair by its key. -/
def insertField (p : String × String) : List (String × String) → List (String × String)
  | [] => [p]
  | q :: t => if p.1 < q.1 then p :: q :: t else q :: insertField p t

/-- Insertion sort of the open field mapping by key, making the encoding
independent of the order in which fields were inserted. -/
def sortFields : List (String × String) → List (String × String)
  | [] => []
  | p :: t => insertField p (sortFields t)

/-- Key ordering used for the canonical field order. -/
def keyLe (p q : String × String) : Prop := p.1 ≤ q.1

/-- Strict key ordering; two fields with distinct keys compare strictly. -/
def keyLt (p q : String × String) : Prop := p.1 < q.1

/-- The full ordered pair list of a record: the always-attached metadata keys
used by the pipeline (_parser_rule, _topic, _raw_log) followed by the
key-sorted open field mapping. -/
def recordPairs (r : ParsedRecord) : List (String × String) :=
  ("_parser_rule", r.ruleName) :: ("_topic", r.topic) :: ("_raw_log", r.rawLog)
    :: sortFields r.fields

/-- Modelled from the spec: transformToJSON(record) serializes the record as
a single keyed JSON object (keys, not positions), deterministically and
losslessly.  Missing source: transform_to_json in parsing/parser.py. -/
def transformToJSON (r : ParsedRecord) : String :=
  String.mk ('\x7b' :: (renderPairsChars (recordPairs r) ++ ['\x7d']))

/-- Parser for the body of a quoted JSON string: returns the unescaped
characters and the remainder after the closing quote. -/
def parseQuotedAux : List Char → Option (List Char × List Char)
  | [] => none
  | c :: t =>
    if c = '\\' then
      match t with
      | [] => none
      | d :: t2 => (parseQuotedAux t2).map (fun res => (d :: res.1, res.2))
    else if c = '"' then some ([], t)
    else (parseQuotedAux t).map (fun res => (c :: res.1, res.2))

/-- Parser for a quoted JSON string. -/
def parseQuoted : List Char → Option (String × List Char)
  | '"' :: t => (parseQuotedAux t).map (fun res => (String.mk res.1, res.2))
  | _ => none

/-- Parser for one key/value member. -/
def parsePairChars (cs : List Char) : Option ((String × String) × List Char) :=
  match parseQuoted cs with
  | none => none
  | some (k, r1) =>
    match r1 with
    | ':' :: r2 =>
      match parseQuoted r2 with
      | none => none
      | some (v, r3) => some ((k, v), r3)
    | _ => none

/-- Parser for a nonempty comma-separated member list (fuel-bounded). -/
def parsePairsChars (fuel : Nat) (cs : List Char) :
    Option (List (String × String) × List Char) :=
  match fuel with
  | 0 => none
  | fuel + 1 =>
    match parsePairChars cs with
    | none => none
    | some (p, rest) =>
      match rest with
      | ',' :: rest2 => (parsePairsChars fuel rest2).map (fun res => (p :: res.1, res.2))
      | _ => some ([p], rest)

/-- Decoder for the object layout produced by transformToJSON: recovers the
full key/value pair list from the output string. -/
def decodeJSONPairs (s : String) : Option (List (String × String)) :=
  match s.toList with
  | '\x7b' :: t =>
    match parsePairsChars (t.length + 1) t with
    | some (ps, ['\x7d']) => some ps
    | _ => none
  | _ => none

/-- Sample analyzer used in concrete witnesses: always raises. -/
def failingAnalyzer : AnalyzerPlugin :=
  { name := "AlwaysFails", analyze := fun _ => .error "boom" }

/-- Sample analyzer used in concrete witnesses: fires on cron records. -/
def counterAnalyzer : AnalyzerPlugin :=
  { name := "EventCounter"
    analyze := fun pr =>
      if pr.ruleName = "cron" then
        .ok (some ⟨.setConfig, "dev1", ["set system.hostname=x"]⟩)
      else .ok none }

/-- Sample parsed record used in concrete witnesses. -/
def sampleRecord : ParsedRecord :=
  { fields := [("message", "job started")], ruleName := "cron",
    topic := "net/logs/host1", rawLog := "Jan 1 00:00:00 host1 cron[123]: job started" }

end LogAnalyzer

namespace JsModel

/-- JavaScript whitespace (the ASCII characters recognized by trim and the
regex class backslash-s; exotic Unicode space characters are not modelled). -/
def isJsWs (c : Char) : Bool :=
  c = ' ' || c = '\t' || c = '\n' || c = '\r' || c = '\x0b' || c = '\x0c'

/-- Embedding of String.prototype.trim: strip leading and trailing whitespace. -/
def jsTrim (s : String) : String :=
  String.mk (((s.data.dropWhile isJsWs).reverse.dropWhile isJsWs).reverse)

/-- Embedding of String.prototype.startsWith on strings. -/
def strStartsWith (s p : String) : Bool :=
  p.data.isPrefixOf s.data

/-- Emptiness test on the character data (same meaning as String.isEmpty,
stated on the data so that it evaluates by kernel reduction). -/
def strIsEmpty (s : String) : Bool :=
  s.data.isEmpty

/-- Substring scan used to embed String.prototype.includes. -/
def listIsInfix (p : List Char) : List Char → Bool
  | [] => p.isEmpty
  | c :: t => p.isPrefixOf (c :: t) || listIsInfix p t

/-- Embedding of String.prototype.includes. -/
def strIncludes (s p : String) : Bool :=
  listIsInfix p.data s.data

/-- Splitting of a character list at newline characters (every part kept,
including empty ones), as String.prototype.split with a newline separator. -/
def splitNl : List Char → List (List Char)
  | [] => [[]]
  | c :: t =>
    let r := splitNl t
    if c = '\n' then [] :: r
    else
      match r with
      | [] => [[c]]
      | h :: t2 => (c :: h) :: t2

/-- Embedding of String.prototype.split with separator newline. -/
def jsSplitNewline (s : String) : List String :=
  (splitNl s.data).map String.mk

end JsModel

namespace Frontend

open JsModel

/-- Component state of ApplyUciModal (Network_Monitor frontend): the textarea
content, the error alert, the loading flag and the displayed command output. -/
structure ModalState where
  uciCommands : String
  error : Option String
  loading : Bool
  commandOutput : Option String
deriving DecidableEq

/-- Outcome of the awaited api.applyUciToDevice call: the response output on
success, or the displayed error message derived from the caught error. -/
inductive ApiOutcome where
  | ok (output : String)
  | err (message : String)
deriving DecidableEq

/-- Embedding of the command-array computation in ApplyUciModal.handleSubmit:
uciCommands.split newline, map trim, filter truthy non-comment lines
(src/Network_Monitor/frontend/src/components/ApplyUciModal.js lines 25-28). -/
def commandsArray (uciCommands : String) : List String :=
  ((jsSplitNewline uciCommands).map jsTrim).filter
    (fun cmd => !(strIsEmpty cmd) && !(strStartsWith cmd "#"))

/-- Embedding of ApplyUciModal.handleSubmit
(src/Network_Monitor/frontend/src/components/ApplyUciModal.js lines 19-47).
The setState calls are folded into the returned final state; the awaited api
outcome is a parameter; the second component is the api call that was made
(device id and command array), none when no call happened. -/
def handleSubmit (deviceId : String) (s : ModalState) (api : ApiOutcome) :
    ModalState × Option (String × List String) :=
  let s1 : ModalState := { s with error := none, commandOutput := none, loading := true }
  let cmds := commandsArray s.uciCommands
  if cmds.isEmpty then
    ({ s1 with error := some "Please enter at least one valid command.", loading := false },
     none)
  else
    match api with
    | .ok output =>
      ({ s1 with commandOutput := some output, loading := false }, some (deviceId, cmds))
    | .err msg =>
      ({ s1 with error := some msg, commandOutput := none, loading := false },
       some (deviceId, cmds))

end Frontend

namespace StatusPage

open JsModel

/-- JavaScript numeric value as produced by parseFloat on a token matched by
the metric regex of the status page: finite decimal tokens are modelled
exactly as rationals (IEEE-754 rounding and overflow are not modelled); the
NaN, +Inf and -Inf token alternatives are not decimal literals for parseFloat
and all yield NaN. -/
inductive JsNum where
  | fin (q : ℚ)
  | nan
deriving DecidableEq

/-- JavaScript addition on these values: NaN propagates through sums. -/
def jsAdd : JsNum → JsNum → JsNum
  | .fin a, .fin b => .fin (a + b)
  | _, _ => .nan

/-- Sum of a list of values, starting from zero. -/
def jsSum (l : List JsNum) : JsNum := l.foldr jsAdd (.fin 0)

/-- Add an optional contribution. -/
def optAdd (x : JsNum) : Option JsNum → JsNum
  | none => x
  | some v => jsAdd x v

/-- First character class of the regex name group: a-z A-Z underscore colon. -/
def isNameStartChar (c : Char) : Bool := c.isAlpha || c = '_' || c = ':'

/-- Later character class of the regex name group: adds the digits. -/
def isNameChar (c : Char) : Bool := isNameStartChar c || c.isDigit

/-- Numeric value of a digit run. -/
def digitsToNat (ds : List Char) : Nat := ds.foldl (fun n c => 10 * n + (c.toNat - 48)) 0

/-- Parsing of the optional exponent group of the value regex; an incomplete
exponent (no digits) consumes nothing, as the optional regex group does. -/
def parseExponent (cs : List Char) : ℤ × List Char :=
  match cs with
  | c :: t =>
    if c = 'e' || c = 'E' then
      match t with
      | '+' :: u =>
        let ed := u.takeWhile Char.isDigit
        if ed.isEmpty then (0, cs) else ((digitsToNat ed : ℤ), u.dropWhile Char.isDigit)
      | '-' :: u =>
        let ed := u.takeWhile Char.isDigit
        if ed.isEmpty then (0, cs) else (-(digitsToNat ed : ℤ), u.dropWhile Char.isDigit)
      | _ =>
        let ed := t.takeWhile Char.isDigit
        if ed.isEmpty then (0, cs) else ((digitsToNat ed : ℤ), t.dropWhile Char.isDigit)
    else (0, cs)
  | [] => (0, cs)

/-- Exact rational value of a matched decimal token
sign times d1.d2 times ten-to-the-exponent. -/
def decimalValue (sgn : ℚ) (d1 d2 : List Char) (ex : ℤ) : ℚ :=
  sgn * ((digitsToNat (d1 ++ d2) : ℚ) / (10 : ℚ) ^ (d2.length : ℕ)) * (10 : ℚ) ^ ex

/-- Parsing of the decimal alternative of the value regex: optional sign,
optional digits-dot group, one or more digits, optional exponent; includes
the regex backtracking fallback that drops the digits-dot group when no digit
follows the dot. -/
def parseNumber (cs : List Char) : Option (ℚ × List Char) :=
  let sgn : ℚ × List Char :=
    match cs with
    | '+' :: t => (1, t)
    | '-' :: t => (-1, t)
    | _ => (1, cs)
  let d1 := sgn.2.takeWhile Char.isDigit
  let r1 := sgn.2.dropWhile Char.isDigit
  match r1 with
  | '.' :: r2 =>
    let d2 := r2.takeWhile Char.isDigit
    let r3 := r2.dropWhile Char.isDigit
    if d2.isEmpty then
      if d1.isEmpty then none
      else some (decimalValue sgn.1 d1 [] 0, r1)
    else
      let ex := parseExponent r3
      some (decimalValue sgn.1 d1 d2 ex.1, ex.2)
  | _ =>
    if d1.isEmpty then none
    else
      let ex := parseExponent r1
      some (decimalValue sgn.1 d1 [] ex.1, ex.2)

/-- Parsing of the full value token: the decimal alternative first, then the
NaN, +Inf and -Inf literals (all of which parseFloat turns into NaN). -/
def parseValueToken (cs : List Char) : Option (JsNum × List Char) :=
  match parseNumber cs with
  | some (q, rest) => some (.fin q, rest)
  | none =>
    match cs with
    | 'N' :: 'a' :: 'N' :: t => some (.nan, t)
    | '+' :: 'I' :: 'n' :: 'f' :: t => some (.nan, t)
    | '-' :: 'I' :: 'n' :: 'f' :: t => some (.nan, t)
    | _ => none

/-- Matching of the regex tail after the label part: one or more whitespace,
the value token, optional whitespace, an optional all-digit timestamp, end of
line. -/
def matchTail (cs : List Char) : Option JsNum :=
  let ws := cs.takeWhile isJsWs
  let r1 := cs.dropWhile isJsWs
  if ws.isEmpty then none
  else
    match parseValueToken r1 with
    | none => none
    | some (v, r2) =>
      let r3 := r2.dropWhile isJsWs
      if r3.all Char.isDigit then some v else none

/-- Greedy search for the label split when the line has no closing brace: the
label group takes as many characters as possible such that the regex tail
still matches the remainder. -/
def searchSplit (t1 : List Char) : Option (List Char × JsNum) :=
  (List.range (t1.length + 1)).findSome? (fun k =>
    (matchTail (t1.drop (t1.length - k))).map (fun v => (t1.take (t1.length - k), v)))

/-- Embedding of the metric-line regular expression of parsePrometheusText
(status template script, src/unnamed/part_006 line 70), determinized: the
name group is the maximal identifier prefix; an opening brace after it is
consumed when present; when a closing brace exists the label group runs up to
the first closing brace (the regex tail cannot contain one, so that is the
only viable split); otherwise the label group is maximal such that the tail
matches.  On success returns the name, labels and parseFloat of the value. -/
def matchMetricLine (line : String) : Option (String × String × JsNum) :=
  match line.data with
  | [] => none
  | c :: rest =>
    if isNameStartChar c then
      let nameTail := rest.takeWhile isNameChar
      let t := rest.dropWhile isNameChar
      let name := String.mk (c :: nameTail)
      let t1 := match t with
        | '\x7b' :: t2 => t2
        | _ => t
      let lb := t1.takeWhile (fun d => !(d = '\x7d'))
      let rest1 := t1.dropWhile (fun d => !(d = '\x7d'))
      match rest1 with
      | '\x7d' :: afterBrace =>
        (matchTail afterBrace).map (fun v => (name, String.mk lb, v))
      | _ =>
        (searchSplit t1).map (fun res => (name, String.mk res.1, res.2))
    else none

/-- The totals record accumulated by parsePrometheusText. -/
structure StatusTotals where
  received : JsNum
  parsed : JsNum
  failed_no_match : JsNum
  failed_decode : JsNum
  failed_json_decode : JsNum
  failed_invalid_json : JsNum
  failed_other : JsNum
deriving DecidableEq

/-- The queue gauges record accumulated by parsePrometheusText; none stands
for the initial N/A display value. -/
structure StatusQueues where
  parsed_queue : Option JsNum
  analysis_queue : Option JsNum
deriving DecidableEq

/-- Initial totals (all zero). -/
def initTotals : StatusTotals :=
  ⟨.fin 0, .fin 0, .fin 0, .fin 0, .fin 0, .fin 0, .fin 0⟩

/-- Initial queue gauges (both N/A). -/
def initQueues : StatusQueues := ⟨none, none⟩

/-- Embedding of the targetMetrics.includes(name) test (part_006 lines 73-79,
104). -/
def isTargetMetric (name : String) : Bool :=
  name = "loganalyzer_logs_received_total"
  || name = "loganalyzer_logs_parsed_total"
  || name = "loganalyzer_logs_failed_total"
  || name = "loganalyzer_parsed_log_queue_size"
  || name = "loganalyzer_analysis_result_queue_size"

/-- The five failure buckets of the status page. -/
inductive FailReason where
  | noMatch
  | decodeErr
  | jsonDecodeErr
  | invalidJson
  | otherReason
deriving DecidableEq

/-- Embedding of the reason bucketing chain on the labels group (part_006
lines 111-122): the first matching substring check wins; empty labels are
falsy and fall through to the other bucket. -/
def failedBucket (labels : String) : FailReason :=
  if !(strIsEmpty labels) && strIncludes labels "reason=\"no_match\"" then .noMatch
  else if !(strIsEmpty labels) && strIncludes labels "reason=\"decode_error\"" then .decodeErr
  else if !(strIsEmpty labels) && strIncludes labels "reason=\"json_decode_error\"" then .jsonDecodeErr
  else if !(strIsEmpty labels) && strIncludes labels "reason=\"invalid_json_structure\"" then .invalidJson
  else .otherReason

/-- The skip test at the top of the loop (part_006 line 96): comment lines
and blank lines are skipped. -/
def skipLine (line : String) : Bool :=
  strStartsWith line "#" || strIsEmpty (jsTrim line)

/-- Embedding of one iteration of the parsePrometheusText loop (part_006
lines 95-130): skip comments and blanks, match the metric regex, and
aggregate the target metrics (counters summed, failed bucketed by reason,
queue gauges overwritten). -/
def processLine (st : StatusTotals × StatusQueues) (line : String) :
    StatusTotals × StatusQueues :=
  if skipLine line then st
  else
    match matchMetricLine line with
    | none => st
    | some (name, labels, v) =>
      if isTargetMetric name then
        if name = "loganalyzer_logs_received_total" then
          ({ st.1 with received := jsAdd st.1.received v }, st.2)
        else if name = "loganalyzer_logs_parsed_total" then
          ({ st.1 with parsed := jsAdd st.1.parsed v }, st.2)
        else if name = "loganalyzer_logs_failed_total" then
          if !(strIsEmpty labels) && strIncludes labels "reason=\"no_match\"" then
            ({ st.1 with failed_no_match := jsAdd st.1.failed_no_match v }, st.2)
          else if !(strIsEmpty labels) && strIncludes labels "reason=\"decode_error\"" then
            ({ st.1 with failed_decode := jsAdd st.1.failed_decode v }, st.2)
          else if !(strIsEmpty labels) && strIncludes labels "reason=\"json_decode_error\"" then
            ({ st.1 with failed_json_decode := jsAdd st.1.failed_json_decode v }, st.2)
          else if !(strIsEmpty labels) && strIncludes labels "reason=\"invalid_json_structure\"" then
            ({ st.1 with failed_invalid_json := jsAdd st.1.failed_invalid_json v }, st.2)
          else
            ({ st.1 with failed_other := jsAdd st.1.failed_other v }, st.2)
        else if name = "loganalyzer_parsed_log_queue_size" then
          (st.1, { st.2 with parsed_queue := some v })
        else if name = "loganalyzer_analysis_result_queue_size" then
          (st.1, { st.2 with analysis_queue := some v })
        else st
      else st

/-- Embedding of parsePrometheusText (part_006 lines 67-132): split the text
on newlines and fold the loop body over the lines. -/
def parsePrometheusText (text : String) : StatusTotals × StatusQueues :=
  (jsSplitNewline text).foldl processLine (initTotals, initQueues)

/-- Classification of the effect of one line on the accumulated state, used
to state the aggregation properties. -/
inductive LineEffect where
  | keep
  | addReceived (v : JsNum)
  | addParsed (v : JsNum)
  | addFailed (b : FailReason) (v : JsNum)
  | setParsedQueue (v : JsNum)
  | setAnalysisQueue (v : JsNum)
deriving DecidableEq

/-- The effect a line has: mirrors the branch structure of the loop body. -/
def lineEffect (line : String) : LineEffect :=
  if skipLine line then .keep
  else
    match matchMetricLine line with
    | none => .keep
    | some (name, labels, v) =>
      if isTargetMetric name then
        if name = "loganalyzer_logs_received_total" then .addReceived v
        else if name = "loganalyzer_logs_parsed_total" then .addParsed v
        else if name = "loganalyzer_logs_failed_total" then .addFailed (failedBucket labels) v
        else if name = "loganalyzer_parsed_log_queue_size" then .setParsedQueue v
        else if name = "loganalyzer_analysis_result_queue_size" then .setAnalysisQueue v
        else .keep
      else .keep

/-- Application of a line effect to the state. -/
def applyEffect (st : StatusTotals × StatusQueues) : LineEffect → StatusTotals × StatusQueues
  | .keep => st
  | .addReceived v => ({ st.1 with received := jsAdd st.1.received v }, st.2)
  | .addParsed v => ({ st.1 with parsed := jsAdd st.1.parsed v }, st.2)
  | .addFailed b v =>
    match b with
    | .noMatch => ({ st.1 with failed_no_match := jsAdd st.1.failed_no_match v }, st.2)
    | .decodeErr => ({ st.1 with failed_decode := jsAdd st.1.failed_decode v }, st.2)
    | .jsonDecodeErr => ({ st.1 with failed_json_decode := jsAdd st.1.failed_json_decode v }, st.2)
    | .invalidJson => ({ st.1 with failed_invalid_json := jsAdd st.1.failed_invalid_json v }, st.2)
    | .otherReason => ({ st.1 with failed_other := jsAdd st.1.failed_other v }, st.2)
  | .setParsedQueue v => (st.1, { st.2 with parsed_queue := some v })
  | .setAnalysisQueue v => (st.1, { st.2 with analysis_queue := some v })

/-- Contribution of a line to the received total. -/
def receivedValue (line : String) : Option JsNum :=
  match lineEffect line with
  | .addReceived v => some v
  | _ => none

/-- Contribution of a line to the parsed total. -/
def parsedValue (line : String) : Option JsNum :=
  match lineEffect line with
  | .addParsed v => some v
  | _ => none

/-- Contribution of a line to one failure bucket. -/
def failedValue (b : FailReason) (line : String) : Option JsNum :=
  match lineEffect line with
  | .addFailed b2 v => if b2 = b then some v else none
  | _ => none

/-- Contribution of a line to the overall failed count (any bucket). -/
def failedAnyValue (line : String) : Option JsNum :=
  match lineEffect line with
  | .addFailed _ v => some v
  | _ => none

/-- Sample metrics text used in the concrete witness. -/
def sampleStatusText : String :=
  "# HELP received\nloganalyzer_logs_received_total\x7binstance=\"a\"\x7d 5.0\nloganalyzer_logs_received_total\x7binstance=\"b\"\x7d 7\nloganalyzer_logs_parsed_total 10.5\nloganalyzer_logs_failed_total\x7breason=\"no_match\"\x7d 3\nloganalyzer_logs_failed_total\x7breason=\"decode_error\"\x7d 2\nloganalyzer_logs_failed_total 4\nloganalyzer_parsed_log_queue_size 12"

end StatusPage

namespace LogAnalyzer

/-- Helper: dispatching a concatenation of analyzer lists concatenates the
collected results and the error logs. -/
theorem runAnalyzers_append (l1 l2 : List AnalyzerPlugin) (pr : ParsedRecord) :
    (runAnalyzers (l1 ++ l2) pr).results
      = (runAnalyzers l1 pr).results ++ (runAnalyzers l2 pr).results
    ∧ (runAnalyzers (l1 ++ l2) pr).errorLogs
      = (runAnalyzers l1 pr).errorLogs ++ (runAnalyzers l2 pr).errorLogs := by
  induction l1 with
  | nil => simp [runAnalyzers]
  | cons a t ih =>
    cases ha : a.analyze pr with
    | error e => simp [runAnalyzers, ha, ih.1, ih.2]
    | ok o => cases o <;> simp [runAnalyzers, ha, ih.1, ih.2]

/-- Helper: rules that all fail to match are skipped by firstMatch. -/
theorem firstMatch_append_none (rules1 : List ParsingRule) (line : String)
    (h : ∀ r ∈ rules1, r.pattern line = none) (rules2 : List ParsingRule) :
    firstMatch (rules1 ++ rules2) line = firstMatch rules2 line := by
  induction rules1 with
  | nil => rfl
  | cons a t ih =>
    have ha : a.pattern line = none := h a (by simp)
    have ht : ∀ r ∈ t, r.pattern line = none := fun r hr => h r (by simp [hr])
    simp [firstMatch, ha, ih ht]

/-- C1: an ActionResult with at least one command failing the allow-list is
rejected whole: zero messages are published, and the rejection is counted and
logged with the offending command and the targetDeviceId. -/
theorem publish_rejects_whole_batch (allowList : List String) (outputPrefix : String)
    (r : ActionResult) (hact : r.action = .setConfig)
    (hbad : ∃ c ∈ r.commands, commandAllowed allowList c = false) :
    (publish allowList outputPrefix r).messages = []
    ∧ (publish allowList outputPrefix r).publishedCount = 0
    ∧ ∃ bad, bad ∈ r.commands ∧ commandAllowed allowList bad = false
        ∧ (publish allowList outputPrefix r).rejectedLog = some (bad, r.targetDeviceId)
        ∧ (publish allowList outputPrefix r).rejectedCount = 1 := by
  obtain ⟨act, dev, cmds⟩ := r
  simp only at hact
  subst hact
  obtain ⟨c, hc, hcv⟩ := hbad
  have hsome : (cmds.find? (fun c => ! commandAllowed allowList c)).isSome := by
    apply List.find?_isSome.mpr
    exact ⟨c, hc, by simp [hcv]⟩
  obtain ⟨bad, hfind⟩ := Option.isSome_iff_exists.mp hsome
  have hmem : bad ∈ cmds := List.mem_of_find?_eq_some hfind
  have hval : commandAllowed allowList bad = false := by
    have := List.find?_some hfind
    simpa using this
  refine ⟨?_, ?_, bad, hmem, hval, ?_, ?_⟩ <;> simp [publish, hfind]

/-- C1 witness: the end-to-end scenario C of the spec, allow-list
set system. / set network. and the command delete firewall.rule1. -/
theorem publish_rejects_whole_batch_witness :
    (publish ["set system.", "set network."] "log_analyzer/commands"
        ⟨.setConfig, "device123", ["delete firewall.rule1"]⟩).messages = []
    ∧ (publish ["set system.", "set network."] "log_analyzer/commands"
        ⟨.setConfig, "device123", ["delete firewall.rule1"]⟩).publishedCount = 0
    ∧ ∃ bad, bad ∈ ["delete firewall.rule1"]
        ∧ commandAllowed ["set system.", "set network."] bad = false
        ∧ (publish ["set system.", "set network."] "log_analyzer/commands"
            ⟨.setConfig, "device123", ["delete firewall.rule1"]⟩).rejectedLog
            = some (bad, "device123")
        ∧ (publish ["set system.", "set network."] "log_analyzer/commands"
            ⟨.setConfig, "device123", ["delete firewall.rule1"]⟩).rejectedCount = 1 :=
  publish_rejects_whole_batch ["set system.", "set network."] "log_analyzer/commands"
    ⟨.setConfig, "device123", ["delete firewall.rule1"]⟩ rfl
    ⟨"delete firewall.rule1", by decide, by decide⟩

/-- C2: an ActionResult whose every command passes the allow-list check is
published as exactly one message per command, in input order, each to the topic
outputPrefix/targetDeviceId, never batched into a single payload. -/
theorem publish_emits_one_message_per_command (allowList : List String)
    (outputPrefix : String) (r : ActionResult) (hact : r.action = .setConfig)
    (hall : ∀ c ∈ r.commands, commandAllowed allowList c = true) :
    publish allowList outputPrefix r =
      { messages := r.commands.map (fun c => (outputPrefix ++ "/" ++ r.targetDeviceId, c)),
        rejectedLog := none, publishedCount := r.commands.length, rejectedCount := 0 }
    ∧ (publish allowList outputPrefix r).messages.length = r.commands.length
    ∧ (publish allowList outputPrefix r).messages.map Prod.snd = r.commands
    ∧ ∀ m ∈ (publish allowList outputPrefix r).messages,
        m.1 = outputPrefix ++ "/" ++ r.targetDeviceId := by
  obtain ⟨act, dev, cmds⟩ := r
  simp only at hact
  subst hact
  have hnone : cmds.find? (fun c => ! commandAllowed allowList c) = none := by
    apply List.find?_eq_none.mpr
    intro x hx
    simp [hall x hx]
  refine ⟨?_, ?_, ?_, ?_⟩
  · simp [publish, hnone]
  · simp [publish, hnone]
  · simp [publish, hnone]
  · intro m hm
    simp only [publish, hnone] at hm
    obtain ⟨c, _hc, rfl⟩ := List.mem_map.mp hm
    rfl

/-- C2 witness: a two-command batch that fully passes the allow-list. -/
theorem publish_emits_one_message_per_command_witness :
    publish ["set system.", "set network."] "log_analyzer/commands"
        ⟨.setConfig, "dev1", ["set system.hostname=x", "set network.lan.proto=dhcp"]⟩ =
      { messages := [("log_analyzer/commands/dev1", "set system.hostname=x"),
                     ("log_analyzer/commands/dev1", "set network.lan.proto=dhcp")],
        rejectedLog := none, publishedCount := 2, rejectedCount := 0 }
    ∧ (publish ["set system.", "set network."] "log_analyzer/commands"
        ⟨.setConfig, "dev1", ["set system.hostname=x", "set network.lan.proto=dhcp"]⟩).messages.length = 2 := by
  have h := publish_emits_one_message_per_command ["set system.", "set network."]
    "log_analyzer/commands"
    ⟨.setConfig, "dev1", ["set system.hostname=x", "set network.lan.proto=dhcp"]⟩
    rfl (by decide)
  exact ⟨h.1, by rw [h.1]; rfl⟩

/-- C5: an ActionResult whose action is not SetConfig is dropped by the
Command Output Gate: zero messages, no rejection log, no counter change. -/
theorem publish_drops_non_setConfig (allowList : List String) (outputPrefix : String)
    (r : ActionResult) (tag : String) (hact : r.action = .other tag) :
    publish allowList outputPrefix r =
      { messages := [], rejectedLog := none, publishedCount := 0, rejectedCount := 0 } := by
  obtain ⟨act, dev, cmds⟩ := r
  simp only at hact
  subst hact
  rfl

/-- C5 witness: a reboot-action result publishes nothing. -/
theorem publish_drops_non_setConfig_witness :
    publish ["set system."] "log_analyzer/commands"
        ⟨.other "reboot", "dev1", ["set system.hostname=x"]⟩ =
      { messages := [], rejectedLog := none, publishedCount := 0, rejectedCount := 0 } :=
  publish_drops_non_setConfig ["set system."] "log_analyzer/commands"
    ⟨.other "reboot", "dev1", ["set system.hostname=x"]⟩ "reboot" rfl

/-- C3: non-UTF-8 payloads give DecodeError; UTF-8 payloads matching no rule
give NoRuleMatchedError; these are the only failure modes; both are terminal
for that single message only (counted, dropped, pipeline continues). -/
theorem parse_error_modes (rules : List ParsingRule) (raw : List Nat) (topic : String)
    (st : IngestCounters × List ParsedRecord) (msg : List Nat × String)
    (rest : List (List Nat × String)) :
    (utf8DecodeString raw = none → parse rules raw topic = .error .decodeError)
    ∧ (∀ line, utf8DecodeString raw = some line → firstMatch rules line = none →
        parse rules raw topic = .error .noRuleMatched)
    ∧ ((∃ e, parse rules raw topic = .error e) ↔
        (utf8DecodeString raw = none
         ∨ ∃ line, utf8DecodeString raw = some line ∧ firstMatch rules line = none))
    ∧ (∀ e, parse rules msg.1 msg.2 = .error e →
        (handleIncoming rules st msg).2 = st.2
        ∧ (handleIncoming rules st msg).1.received = st.1.received + 1
        ∧ (e = .decodeError →
            (handleIncoming rules st msg).1.decodeFailed = st.1.decodeFailed + 1)
        ∧ (e = .noRuleMatched →
            (handleIncoming rules st msg).1.noMatchFailed = st.1.noMatchFailed + 1))
    ∧ runIngestion rules (msg :: rest) st = runIngestion rules rest (handleIncoming rules st msg) := by
  refine ⟨?_, ?_, ?_, ?_, rfl⟩
  · intro h
    simp [parse, h]
  · intro line h1 h2
    simp [parse, h1, h2]
  · constructor
    · rintro ⟨e, he⟩
      cases hdec : utf8DecodeString raw with
      | none => exact Or.inl rfl
      | some line =>
        cases hfm : firstMatch rules line with
        | none => exact Or.inr ⟨line, rfl, hfm⟩
        | some rc =>
          exfalso
          simp [parse, hdec, hfm] at he
    · rintro (h | ⟨line, h1, h2⟩)
      · exact ⟨.decodeError, by simp [parse, h]⟩
      · exact ⟨.noRuleMatched, by simp [parse, h1, h2]⟩
  · intro e he
    cases e <;> simp [handleIncoming, he]

/-- C3 witness: the byte 0xFF is not UTF-8 and gives DecodeError; the ASCII
line zzz decodes but matches no rule and gives NoRuleMatchedError; in both
cases the record queue is unchanged and the failure counter is incremented. -/
theorem parse_error_modes_witness :
    parse [dropbearRule] [0xFF] "net/logs/h1" = .error .decodeError
    ∧ parse [dropbearRule] [122, 122, 122] "net/logs/h1" = .error .noRuleMatched
    ∧ (handleIncoming [dropbearRule] (⟨0, 0, 0, 0⟩, []) ([0xFF], "net/logs/h1")).2 = []
    ∧ (handleIncoming [dropbearRule] (⟨0, 0, 0, 0⟩, []) ([0xFF], "net/logs/h1")).1.decodeFailed = 1 := by
  have h := parse_error_modes [dropbearRule] [0xFF] "net/logs/h1"
    (⟨0, 0, 0, 0⟩, []) ([0xFF], "net/logs/h1") []
  have h2 := parse_error_modes [dropbearRule] [122, 122, 122] "net/logs/h1"
    (⟨0, 0, 0, 0⟩, []) ([122, 122, 122], "net/logs/h1") []
  have hdec : parse [dropbearRule] [0xFF] "net/logs/h1" = .error .decodeError := h.1 rfl
  have hfour := h.2.2.2.1 .decodeError hdec
  exact ⟨hdec, h2.2.1 "zzz" rfl rfl, hfour.1, hfour.2.2.1 rfl⟩

/-- C4: for a decodable payload, the first rule in declaration order whose
pattern matches wins, the record's fields are exactly the named capture groups
mapped through that rule's fieldMap (unmapped groups ignored), with ruleName,
topic and rawLog attached. -/
theorem parse_first_match_wins (rules1 : List ParsingRule) (r : ParsingRule)
    (rules2 : List ParsingRule) (raw : List Nat) (topic line : String)
    (caps : List (String × String))
    (hdec : utf8DecodeString raw = some line)
    (hskip : ∀ r' ∈ rules1, r'.pattern line = none)
    (hmatch : r.pattern line = some caps) :
    parse (rules1 ++ r :: rules2) raw topic =
      .ok { fields := caps.filterMap (fun gv => (r.fieldMap.lookup gv.1).map (fun out => (out, gv.2))),
            ruleName := r.name, topic := topic, rawLog := line } := by
  have hfm : firstMatch (rules1 ++ r :: rules2) line = some (r, caps) := by
    rw [firstMatch_append_none rules1 line hskip (r :: rules2)]
    simp [firstMatch, hmatch]
  simp [parse, hdec, hfm, mapCaptures]

/-- C4 witness: the end-to-end scenario A of the spec.  The first rule does
not match, the second captures host, proc, msg plus an unmapped extra group;
the record carries exactly the mapped fields with ruleName, topic, rawLog. -/
theorem parse_first_match_wins_witness :
    parse [dropbearRule, cronRule]
        [74, 97, 110, 32, 49, 32, 48, 48, 58, 48, 48, 58, 48, 48, 32, 104, 111, 115,
         116, 49, 32, 99, 114, 111, 110, 91, 49, 50, 51, 93, 58, 32, 106, 111, 98,
         32, 115, 116, 97, 114, 116, 101, 100] "net/logs/host1" =
      .ok { fields := [("host", "host1"), ("processName", "cron"), ("message", "job started")],
            ruleName := "cron", topic := "net/logs/host1",
            rawLog := "Jan 1 00:00:00 host1 cron[123]: job started" } := by
  have h := parse_first_match_wins [dropbearRule] cronRule []
    [74, 97, 110, 32, 49, 32, 48, 48, 58, 48, 48, 58, 48, 48, 32, 104, 111, 115,
     116, 49, 32, 99, 114, 111, 110, 91, 49, 50, 51, 93, 58, 32, 106, 111, 98,
     32, 115, 116, 97, 114, 116, 101, 100] "net/logs/host1"
    "Jan 1 00:00:00 host1 cron[123]: job started"
    [("host", "host1"), ("proc", "cron"), ("msg", "job started"), ("extra", "x")]
    (by decide)
    (by
      intro r' hr'
      rw [List.mem_singleton.mp hr']
      decide)
    (by decide)
  have hl : [dropbearRule] ++ [cronRule] = [dropbearRule, cronRule] := rfl
  rw [hl] at h
  rw [h]
  simp only [Except.ok.injEq]
  decide

/-- C6: an error raised by one analyzer is caught and logged with the
analyzer's name and the record's ruleName; it neither prevents the remaining
enabled analyzers from running on that record nor stops the worker from
processing subsequent records. -/
theorem analyzer_error_isolated (pre : List AnalyzerPlugin) (a : AnalyzerPlugin)
    (post : List AnalyzerPlugin) (pr : ParsedRecord) (e : String)
    (recs : List ParsedRecord) (herr : a.analyze pr = .error e) :
    (runAnalyzers (pre ++ a :: post) pr).results
      = (runAnalyzers pre pr).results ++ (runAnalyzers post pr).results
    ∧ (a.name, pr.ruleName, e) ∈ (runAnalyzers (pre ++ a :: post) pr).errorLogs
    ∧ processRecords (pre ++ a :: post) (pr :: recs)
      = runAnalyzers (pre ++ a :: post) pr :: processRecords (pre ++ a :: post) recs := by
  have happ := runAnalyzers_append pre (a :: post) pr
  have hmid : (runAnalyzers (a :: post) pr).results = (runAnalyzers post pr).results
      ∧ (runAnalyzers (a :: post) pr).errorLogs
        = (a.name, pr.ruleName, e) :: (runAnalyzers post pr).errorLogs := by
    constructor <;> simp [runAnalyzers, herr]
  refine ⟨?_, ?_, rfl⟩
  · rw [happ.1, hmid.1]
  · rw [happ.2, hmid.2]
    simp

/-- C6 witness: a failing analyzer sandwiched between two working analyzers;
both neighbours still produce their results and the error is logged. -/
theorem analyzer_error_isolated_witness :
    (runAnalyzers ([counterAnalyzer] ++ failingAnalyzer :: [counterAnalyzer]) sampleRecord).results
      = (runAnalyzers [counterAnalyzer] sampleRecord).results
        ++ (runAnalyzers [counterAnalyzer] sampleRecord).results
    ∧ (failingAnalyzer.name, sampleRecord.ruleName, "boom")
        ∈ (runAnalyzers ([counterAnalyzer] ++ failingAnalyzer :: [counterAnalyzer]) sampleRecord).errorLogs
    ∧ processRecords ([counterAnalyzer] ++ failingAnalyzer :: [counterAnalyzer]) (sampleRecord :: [])
      = runAnalyzers ([counterAnalyzer] ++ failingAnalyzer :: [counterAnalyzer]) sampleRecord
        :: processRecords ([counterAnalyzer] ++ failingAnalyzer :: [counterAnalyzer]) [] :=
  analyzer_error_isolated [counterAnalyzer] failingAnalyzer [counterAnalyzer]
    sampleRecord "boom" [] rfl

/-- C7: offering an item to a bounded inter-stage queue is a total step that
never lets the queue grow beyond its capacity; when the queue is full the item
is dropped and the dropped-due-to-backpressure counter is incremented. -/
theorem queue_backpressure {α : Type} (q : BoundedQueue α) (x : α)
    (hbound : q.items.length ≤ q.capacity) :
    (offer q x).items.length ≤ q.capacity
    ∧ (offer q x).capacity = q.capacity
    ∧ (q.items.length = q.capacity →
        offer q x = { q with droppedCount := q.droppedCount + 1 })
    ∧ (q.items.length < q.capacity →
        (offer q x).items = q.items ++ [x]
        ∧ (offer q x).droppedCount = q.droppedCount) := by
  by_cases h : q.items.length < q.capacity
  · refine ⟨?_, ?_, ?_, ?_⟩
    · simp only [offer, if_pos h, List.length_append, List.length_cons, List.length_nil]
      omega
    · simp [offer, h]
    · intro hfull
      omega
    · intro _
      simp [offer, h]
  · refine ⟨?_, ?_, ?_, ?_⟩
    · simpa [offer, h] using hbound
    · simp [offer, h]
    · intro _
      simp [offer, h]
    · intro hlt
      exact absurd hlt h

/-- Helper: ordered insertion permutes to consing. -/
theorem insertField_perm (p : String × String) (l : List (String × String)) :
    (insertField p l).Perm (p :: l) := by
  induction l with
  | nil => exact List.Perm.refl _
  | cons q t ih =>
    by_cases h : p.1 < q.1
    · simp [insertField, h]
    · simp only [insertField, if_neg h]
      exact (ih.cons q).trans (List.Perm.swap p q t)

/-- Helper: sorting the fields is a permutation. -/
theorem sortFields_perm (l : List (String × String)) : (sortFields l).Perm l := by
  induction l with
  | nil => exact List.Perm.refl _
  | cons p t ih =>
    exact (insertField_perm p (sortFields t)).trans (ih.cons p)

/-- Helper: ordered insertion preserves weak key-sortedness. -/
theorem insertField_sorted (p : String × String) (l : List (String × String))
    (h : l.Pairwise keyLe) : (insertField p l).Pairwise keyLe := by
  induction l with
  | nil => simp [insertField, List.Pairwise.nil]
  | cons q t ih =>
    rw [List.pairwise_cons] at h
    by_cases hpq : p.1 < q.1
    · simp only [insertField, if_pos hpq]
      rw [List.pairwise_cons]
      constructor
      · intro x hx
        rcases List.mem_cons.mp hx with hx | hx
        · subst hx
          exact le_of_lt hpq
        · exact le_trans (le_of_lt hpq) (h.1 x hx)
      · rw [List.pairwise_cons]
        exact h
    · simp only [insertField, if_neg hpq]
      rw [List.pairwise_cons]
      constructor
      · intro x hx
        have hx2 : x ∈ p :: t := (insertField_perm p t).mem_iff.mp hx
        rcases List.mem_cons.mp hx2 with hx2 | hx2
        · subst hx2
          exact le_of_not_lt hpq
        · exact h.1 x hx2
      · exact ih h.2

/-- Helper: the sorted fields are weakly key-sorted. -/
theorem sortFields_sorted (l : List (String × String)) :
    (sortFields l).Pairwise keyLe := by
  induction l with
  | nil => exact List.Pairwise.nil
  | cons p t ih => exact insertField_sorted p (sortFields t) ih

/-- Helper: weak key-sortedness plus distinct keys gives strict sortedness. -/
theorem pairwise_keyLt_of_keyLe (l : List (String × String))
    (h : l.Pairwise keyLe) (hnd : (l.map Prod.fst).Nodup) : l.Pairwise keyLt := by
  induction l with
  | nil => exact List.Pairwise.nil
  | cons p t ih =>
    rw [List.pairwise_cons] at h
    rw [List.map_cons, List.nodup_cons] at hnd
    rw [List.pairwise_cons]
    constructor
    · intro x hx
      have hne : p.1 ≠ x.1 := by
        intro heq
        exact hnd.1 (heq ▸ List.mem_map_of_mem Prod.fst hx)
      exact lt_of_le_of_ne (h.1 x hx) hne
    · exact ih h.2 hnd.2

/-- Helper: two strictly key-sorted permutations of each other are equal. -/
theorem eq_of_perm_of_keyLt (l1 : List (String × String)) :
    ∀ l2, l1.Perm l2 → l1.Pairwise keyLt → l2.Pairwise keyLt → l1 = l2 := by
  induction l1 with
  | nil =>
    intro l2 hperm _ _
    exact (hperm.nil_eq).symm ▸ rfl
  | cons a t ih =>
    intro l2 hperm h1 h2
    cases l2 with
    | nil => exact absurd hperm.symm.nil_eq (by simp)
    | cons b t2 =>
      have hab : a = b := by
        by_contra hne
        have ha : a ∈ b :: t2 := hperm.mem_iff.mp (List.mem_cons_self a t)
        have hb : b ∈ a :: t := hperm.symm.mem_iff.mp (List.mem_cons_self b t2)
        rcases List.mem_cons.mp ha with h | h
        · exact hne h
        · rcases List.mem_cons.mp hb with h' | h'
          · exact hne h'.symm
          · have hba : b.1 < a.1 := (List.pairwise_cons.mp h2).1 a h
            have hab2 : a.1 < b.1 := (List.pairwise_cons.mp h1).1 b h'
            exact absurd hab2 (not_lt_of_gt hba)
      subst hab
      have htperm : t.Perm t2 := hperm.cons_inv
      rw [ih t2 htperm (List.pairwise_cons.mp h1).2 (List.pairwise_cons.mp h2).2]

/-- Helper: sorting two key-nodup permutations of each other gives the same
sorted list. -/
theorem sortFields_eq_of_perm (l1 l2 : List (String × String))
    (hperm : l1.Perm l2) (hnd : (l2.map Prod.fst).Nodup) :
    sortFields l1 = sortFields l2 := by
  have h1 : (sortFields l1).Perm (sortFields l2) :=
    ((sortFields_perm l1).trans hperm).trans (sortFields_perm l2).symm
  have hnd1 : ((sortFields l1).map Prod.fst).Nodup := by
    have := ((sortFields_perm l1).trans hperm).map Prod.fst
    exact this.nodup_iff.mpr hnd
  have hnd2 : ((sortFields l2).map Prod.fst).Nodup := by
    have := (sortFields_perm l2).map Prod.fst
    exact this.nodup_iff.mpr hnd
  exact eq_of_perm_of_keyLt (sortFields l1) (sortFields l2) h1
    (pairwise_keyLt_of_keyLe _ (sortFields_sorted l1) hnd1)
    (pairwise_keyLt_of_keyLe _ (sortFields_sorted l2) hnd2)

/-- Helper: building a string from its own character data is the identity. -/
theorem stringMk_data (s : String) : String.mk s.data = s := rfl

/-- Helper: unfolding of the quoted-body parser at a closing quote. -/
theorem parseQuotedAux_quote (rest : List Char) :
    parseQuotedAux ('"' :: rest) = some ([], rest) := by
  rw [parseQuotedAux.eq_def]
  simp

/-- Helper: unfolding of the quoted-body parser at an escape. -/
theorem parseQuotedAux_backslash (d : Char) (rest : List Char) :
    parseQuotedAux ('\\' :: d :: rest)
      = (parseQuotedAux rest).map (fun res => (d :: res.1, res.2)) := by
  rw [parseQuotedAux.eq_def]
  simp

/-- Helper: unfolding of the quoted-body parser at an ordinary character. -/
theorem parseQuotedAux_other (c : Char) (rest : List Char) (h1 : ¬ c = '"')
    (h2 : ¬ c = '\\') :
    parseQuotedAux (c :: rest) = (parseQuotedAux rest).map (fun res => (c :: res.1, res.2)) := by
  rw [parseQuotedAux.eq_def]
  simp [h1, h2]

/-- Helper: parsing an escaped body up to the closing quote restores it. -/
theorem parseQuotedAux_escape (l rest : List Char) :
    parseQuotedAux (escapeChars l ++ '"' :: rest) = some (l, rest) := by
  induction l with
  | nil => simp [escapeChars, parseQuotedAux_quote]
  | cons c t ih =>
    by_cases h1 : c = '"'
    · subst h1
      have hs : escapeChars ('"' :: t) ++ '"' :: rest
          = '\\' :: '"' :: (escapeChars t ++ '"' :: rest) := by
        simp [escapeChars, escapeChar]
      rw [hs, parseQuotedAux_backslash, ih]
      rfl
    · by_cases h2 : c = '\\'
      · subst h2
        have hs : escapeChars ('\\' :: t) ++ '"' :: rest
            = '\\' :: '\\' :: (escapeChars t ++ '"' :: rest) := by
          simp [escapeChars, escapeChar]
        rw [hs, parseQuotedAux_backslash, ih]
        rfl
      · have hs : escapeChars (c :: t) ++ '"' :: rest
            = c :: (escapeChars t ++ '"' :: rest) := by
          simp [escapeChars, escapeChar, h1, h2]
        rw [hs, parseQuotedAux_other c _ h1 h2, ih]
        rfl

/-- Helper: parsing a rendered quoted string restores it. -/
theorem parseQuoted_render (l rest : List Char) :
    parseQuoted ('"' :: (escapeChars l ++ '"' :: rest)) = some (String.mk l, rest) := by
  simp [parseQuoted, parseQuotedAux_escape]

/-- Helper: parsing a rendered member restores the pair. -/
theorem parsePairChars_render (k v : String) (rest : List Char) :
    parsePairChars (renderPairChars (k, v) ++ rest) = some ((k, v), rest) := by
  have h1 : renderPairChars (k, v) ++ rest
      = '"' :: (escapeChars k.data ++ '"' :: ':' :: '"' :: (escapeChars v.data ++ '"' :: rest)) := by
    simp [renderPairChars]
  rw [h1, parsePairChars, parseQuoted_render]
  simp [parseQuoted_render, stringMk_data]

/-- Helper: parsing a rendered nonempty member list followed by the closing
brace restores the list, given enough fuel. -/
theorem parsePairsChars_render (ps : List (String × String)) :
    ps ≠ [] → ∀ fuel, ps.length ≤ fuel →
      parsePairsChars fuel (renderPairsChars ps ++ ['\x7d']) = some (ps, ['\x7d']) := by
  induction ps with
  | nil => intro hne; exact absurd rfl hne
  | cons p t ih =>
    intro _ fuel hfuel
    cases fuel with
    | zero => simp at hfuel
    | succ f =>
      obtain ⟨k, v⟩ := p
      cases t with
      | nil =>
        simp only [renderPairsChars]
        rw [parsePairsChars, parsePairChars_render]
        rfl
      | cons q t2 =>
        have hf : (q :: t2).length ≤ f := by
          simp only [List.length_cons] at hfuel ⊢
          omega
        have hrec := ih (by simp) f hf
        simp only [renderPairsChars]
        have hshape : (renderPairChars (k, v) ++ ',' :: renderPairsChars (q :: t2)) ++ ['\x7d']
            = renderPairChars (k, v) ++ (',' :: (renderPairsChars (q :: t2) ++ ['\x7d'])) := by
          simp
        rw [hshape, parsePairsChars, parsePairChars_render]
        simp only []
        rw [hrec]
        rfl

/-- Helper: each member renders to at least one character. -/
theorem renderPairsChars_length (ps : List (String × String)) :
    ps.length ≤ (renderPairsChars ps).length := by
  induction ps with
  | nil => simp [renderPairsChars]
  | cons p t ih =>
    cases t with
    | nil => simp [renderPairsChars, renderPairChars]
    | cons q t2 =>
      simp only [renderPairsChars, List.length_append, List.length_cons] at ih ⊢
      have h1 : 1 ≤ (renderPairChars p).length := by
        obtain ⟨k, v⟩ := p
        simp [renderPairChars]
      omega

/-- Helper: decoding the rendered object recovers the full pair list. -/
theorem decodeJSONPairs_render (ps : List (String × String)) (hne : ps ≠ []) :
    decodeJSONPairs (String.mk ('\x7b' :: (renderPairsChars ps ++ ['\x7d']))) = some ps := by
  have hfuel : ps.length ≤ (renderPairsChars ps ++ ['\x7d']).length + 1 := by
    have := renderPairsChars_length ps
    simp only [List.length_append, List.length_cons, List.length_nil]
    omega
  have hparse := parsePairsChars_render ps hne ((renderPairsChars ps ++ ['\x7d']).length + 1) hfuel
  simp only [decodeJSONPairs]
  rw [show (String.mk ('\x7b' :: (renderPairsChars ps ++ ['\x7d']))).toList
      = '\x7b' :: (renderPairsChars ps ++ ['\x7d']) from rfl]
  simp only [List.length_append, List.length_cons, List.length_nil] at hparse ⊢
  rw [hparse]
  rfl

/-- C8: transformToJSON is a pure function of the record, its encoding is
keyed and independent of the order of the open field mapping (for records
with distinct field keys), and it is lossless: the decoder recovers every
pair, metadata and open fields alike, from the output string. -/
theorem transformToJSON_lossless (r r2 : ParsedRecord)
    (hnd : (r.fields.map Prod.fst).Nodup)
    (hperm : r2.fields.Perm r.fields)
    (hrn : r2.ruleName = r.ruleName) (ht : r2.topic = r.topic) (hrl : r2.rawLog = r.rawLog) :
    transformToJSON r2 = transformToJSON r
    ∧ decodeJSONPairs (transformToJSON r) = some (recordPairs r)
    ∧ (sortFields r.fields).Perm r.fields := by
  refine ⟨?_, ?_, sortFields_perm r.fields⟩
  · have hsort : sortFields r2.fields = sortFields r.fields :=
      sortFields_eq_of_perm r2.fields r.fields hperm hnd
    simp [transformToJSON, recordPairs, hsort, hrn, ht, hrl]
  · exact decodeJSONPairs_render (recordPairs r) (by simp [recordPairs])

/-- C8 witness: a record with two open fields and the same record with the
fields given in the other order produce the same output string, and the
decoder recovers every pair from it. -/
theorem transformToJSON_lossless_witness :
    transformToJSON ⟨[("level", "info"), ("host", "h1")], "cron", "net/logs/h1", "raw line"⟩
      = transformToJSON ⟨[("host", "h1"), ("level", "info")], "cron", "net/logs/h1", "raw line"⟩
    ∧ decodeJSONPairs (transformToJSON ⟨[("host", "h1"), ("level", "info")], "cron", "net/logs/h1", "raw line"⟩)
      = some (recordPairs ⟨[("host", "h1"), ("level", "info")], "cron", "net/logs/h1", "raw line"⟩)
    ∧ (sortFields ([("host", "h1"), ("level", "info")] : List (String × String))).Perm
        [("host", "h1"), ("level", "info")] :=
  transformToJSON_lossless
    ⟨[("host", "h1"), ("level", "info")], "cron", "net/logs/h1", "raw line"⟩
    ⟨[("level", "info"), ("host", "h1")], "cron", "net/logs/h1", "raw line"⟩
    (by decide) (by decide) rfl rfl rfl

/-- C7 witness: a full two-element queue drops the offered item and counts it. -/
theorem queue_backpressure_witness :
    (offer (BoundedQueue.mk 2 ["a", "b"] 0) "c").items.length ≤ 2
    ∧ (offer (BoundedQueue.mk 2 ["a", "b"] 0) "c").capacity = 2
    ∧ (((["a", "b"] : List String).length = 2) →
        offer (BoundedQueue.mk 2 ["a", "b"] 0) "c" = BoundedQueue.mk 2 ["a", "b"] 1)
    ∧ ((["a", "b"] : List String).length < 2 →
        (offer (BoundedQueue.mk 2 ["a", "b"] 0) "c").items = ["a", "b"] ++ ["c"]
        ∧ (offer (BoundedQueue.mk 2 ["a", "b"] 0) "c").droppedCount = 0) :=
  queue_backpressure (BoundedQueue.mk 2 ["a", "b"] 0) "c" (by decide)

end LogAnalyzer

namespace Frontend

open JsModel

/-- C9 counterexample: with the filtered command array empty, handleSubmit
makes no api call and sets the error message, but the modal state is not
otherwise unchanged: a previously displayed command output is cleared. -/
theorem handleSubmit_counterexample :
    (handleSubmit "dev1" (ModalState.mk "" none false (some "previous output"))
        (ApiOutcome.ok "ignored")).2 = none
    ∧ (handleSubmit "dev1" (ModalState.mk "" none false (some "previous output"))
        (ApiOutcome.ok "ignored")).1.error = some "Please enter at least one valid command."
    ∧ (ModalState.mk "" none false (some "previous output")).commandOutput
        = some "previous output"
    ∧ (handleSubmit "dev1" (ModalState.mk "" none false (some "previous output"))
        (ApiOutcome.ok "ignored")).1.commandOutput = none := by
  decide

/-- C9 amended: whenever handleSubmit makes an api call, the command array
sent is the textarea content split on newlines, trimmed, with empty and
comment lines removed; whenever that filtered array is empty, no api call is
made, the error message is set, the previously displayed command output is
cleared, loading ends false, and the commands text is unchanged. -/
theorem handleSubmit_amended (deviceId : String) (s : ModalState) (api : ApiOutcome) :
    (∀ call, (handleSubmit deviceId s api).2 = some call →
        call.2 = ((jsSplitNewline s.uciCommands).map jsTrim).filter
          (fun cmd => !(strIsEmpty cmd) && !(strStartsWith cmd "#")))
    ∧ (commandsArray s.uciCommands = [] →
        handleSubmit deviceId s api =
          ({ s with error := some "Please enter at least one valid command.",
                    commandOutput := none, loading := false }, none)) := by
  obtain ⟨u, e, l, co⟩ := s
  constructor
  · intro call hcall
    by_cases h : (commandsArray u).isEmpty
    · simp [handleSubmit, h] at hcall
    · cases api with
      | ok output =>
        simp [handleSubmit, h] at hcall
        rw [← hcall]
        rfl
      | err msg =>
        simp [handleSubmit, h] at hcall
        rw [← hcall]
        rfl
  · intro hempty
    have h : (commandsArray u).isEmpty = true := by
      rw [hempty]
      rfl
    cases api <;> simp [handleSubmit, h]

/-- C9 amended witness: a textarea with one comment line, one blank line and
two command lines sends exactly the two trimmed commands; a comment-only
textarea makes no call, sets the error, clears the output and keeps the text. -/
theorem handleSubmit_amended_witness :
    ("dev42", ["uci show wireless", "dmesg | tail"]).2
      = ((jsSplitNewline "uci show wireless\n# comment\n\n  dmesg | tail  ").map jsTrim).filter
          (fun cmd => !(strIsEmpty cmd) && !(strStartsWith cmd "#"))
    ∧ handleSubmit "dev9" (ModalState.mk "# only comments" none false (some "old")) (ApiOutcome.err "e")
        = (ModalState.mk "# only comments" (some "Please enter at least one valid command.")
            false none, none) := by
  constructor
  · exact (handleSubmit_amended "dev42"
      (ModalState.mk "uci show wireless\n# comment\n\n  dmesg | tail  " none false (some "x"))
      (ApiOutcome.ok "out")).1 ("dev42", ["uci show wireless", "dmesg | tail"]) (by decide)
  · have h := (handleSubmit_amended "dev9"
      (ModalState.mk "# only comments" none false (some "old")) (ApiOutcome.err "e")).2 (by decide)
    exact h

end Frontend

namespace StatusPage

open JsModel

/-- Helper: adding the zero value on the right. -/
theorem jsAdd_fin_zero_right (x : JsNum) : jsAdd x (.fin 0) = x := by
  cases x <;> simp [jsAdd]

/-- Helper: adding the zero value on the left. -/
theorem jsAdd_fin_zero_left (x : JsNum) : jsAdd (.fin 0) x = x := by
  cases x <;> simp [jsAdd]

/-- Helper: associativity of the value addition. -/
theorem jsAdd_assoc (a b c : JsNum) : jsAdd (jsAdd a b) c = jsAdd a (jsAdd b c) := by
  cases a <;> cases b <;> cases c <;> simp [jsAdd, add_assoc]

/-- Helper: commutativity of the value addition. -/
theorem jsAdd_comm (a b : JsNum) : jsAdd a b = jsAdd b a := by
  cases a <;> cases b <;> simp [jsAdd, add_comm]

/-- Helper: left commutativity of the value addition. -/
theorem jsAdd_left_comm (a b c : JsNum) : jsAdd a (jsAdd b c) = jsAdd b (jsAdd a c) := by
  rw [← jsAdd_assoc, jsAdd_comm a b, jsAdd_assoc]

/-- Helper: unfolding of the value sum at a cons. -/
theorem jsSum_cons (v : JsNum) (l : List JsNum) : jsSum (v :: l) = jsAdd v (jsSum l) := rfl

/-- Helper: the loop body equals the application of the line's classified
effect. -/
theorem processLine_eq (st : StatusTotals × StatusQueues) (line : String) :
    processLine st line = applyEffect st (lineEffect line) := by
  by_cases hs : skipLine line
  · simp [processLine, lineEffect, hs, applyEffect]
  · cases hm : matchMetricLine line with
    | none => simp [processLine, lineEffect, hs, hm, applyEffect]
    | some nlv =>
      obtain ⟨n, lb, v⟩ := nlv
      simp only [processLine, lineEffect, hs, hm, failedBucket, Bool.false_eq_true,
        if_false, ite_false]
      split_ifs <;> simp [applyEffect]

/-- Helper: the received field evolves by the line's received contribution. -/
theorem processLine_received (st : StatusTotals × StatusQueues) (line : String) :
    (processLine st line).1.received = optAdd st.1.received (receivedValue line) := by
  rw [processLine_eq]
  cases he : lineEffect line with
  | addFailed b v => cases b <;> simp [applyEffect, optAdd, receivedValue, he]
  | _ => simp [applyEffect, optAdd, receivedValue, he]

/-- Helper: the parsed field evolves by the line's parsed contribution. -/
theorem processLine_parsed (st : StatusTotals × StatusQueues) (line : String) :
    (processLine st line).1.parsed = optAdd st.1.parsed (parsedValue line) := by
  rw [processLine_eq]
  cases he : lineEffect line with
  | addFailed b v => cases b <;> simp [applyEffect, optAdd, parsedValue, he]
  | _ => simp [applyEffect, optAdd, parsedValue, he]

/-- Helper: the no-match bucket evolves by its contribution. -/
theorem processLine_failed_no_match (st : StatusTotals × StatusQueues) (line : String) :
    (processLine st line).1.failed_no_match
      = optAdd st.1.failed_no_match (failedValue .noMatch line) := by
  rw [processLine_eq]
  cases he : lineEffect line with
  | addFailed b v => cases b <;> simp [applyEffect, optAdd, failedValue, he]
  | _ => simp [applyEffect, optAdd, failedValue, he]

/-- Helper: the decode-error bucket evolves by its contribution. -/
theorem processLine_failed_decode (st : StatusTotals × StatusQueues) (line : String) :
    (processLine st line).1.failed_decode
      = optAdd st.1.failed_decode (failedValue .decodeErr line) := by
  rw [processLine_eq]
  cases he : lineEffect line with
  | addFailed b v => cases b <;> simp [applyEffect, optAdd, failedValue, he]
  | _ => simp [applyEffect, optAdd, failedValue, he]

/-- Helper: the json-decode-error bucket evolves by its contribution. -/
theorem processLine_failed_json_decode (st : StatusTotals × StatusQueues) (line : String) :
    (processLine st line).1.failed_json_decode
      = optAdd st.1.failed_json_decode (failedValue .jsonDecodeErr line) := by
  rw [processLine_eq]
  cases he : lineEffect line with
  | addFailed b v => cases b <;> simp [applyEffect, optAdd, failedValue, he]
  | _ => simp [applyEffect, optAdd, failedValue, he]

/-- Helper: the invalid-json-structure bucket evolves by its contribution. -/
theorem processLine_failed_invalid_json (st : StatusTotals × StatusQueues) (line : String) :
    (processLine st line).1.failed_invalid_json
      = optAdd st.1.failed_invalid_json (failedValue .invalidJson line) := by
  rw [processLine_eq]
  cases he : lineEffect line with
  | addFailed b v => cases b <;> simp [applyEffect, optAdd, failedValue, he]
  | _ => simp [applyEffect, optAdd, failedValue, he]

/-- Helper: the other bucket evolves by its contribution. -/
theorem processLine_failed_other (st : StatusTotals × StatusQueues) (line : String) :
    (processLine st line).1.failed_other
      = optAdd st.1.failed_other (failedValue .otherReason line) := by
  rw [processLine_eq]
  cases he : lineEffect line with
  | addFailed b v => cases b <;> simp [applyEffect, optAdd, failedValue, he]
  | _ => simp [applyEffect, optAdd, failedValue, he]

/-- Helper: folding the loop body accumulates, for any field that evolves by
per-line contributions, the sum of the contributions of the lines. -/
theorem foldl_processLine_field (g : StatusTotals × StatusQueues → JsNum)
    (f : String → Option JsNum)
    (hg : ∀ st l, g (processLine st l) = optAdd (g st) (f l)) :
    ∀ (lines : List String) (st : StatusTotals × StatusQueues),
      g (lines.foldl processLine st) = jsAdd (g st) (jsSum (lines.filterMap f)) := by
  intro lines
  induction lines with
  | nil => intro st; simp [jsSum, jsAdd_fin_zero_right]
  | cons l ls ih =>
    intro st
    rw [List.foldl_cons, ih, hg]
    cases hf : f l with
    | none => simp [optAdd, List.filterMap_cons, hf]
    | some v =>
      simp only [optAdd, List.filterMap_cons, hf, jsSum_cons]
      rw [jsAdd_assoc]

/-- Helper: the five reason buckets partition the failed contributions, so
their sums add up to the sum of all failed contributions. -/
theorem bucket_partition (lines : List String) :
    jsAdd (jsAdd (jsAdd (jsAdd (jsSum (lines.filterMap (failedValue .noMatch)))
        (jsSum (lines.filterMap (failedValue .decodeErr))))
        (jsSum (lines.filterMap (failedValue .jsonDecodeErr))))
        (jsSum (lines.filterMap (failedValue .invalidJson))))
        (jsSum (lines.filterMap (failedValue .otherReason)))
      = jsSum (lines.filterMap failedAnyValue) := by
  induction lines with
  | nil => simp [jsSum, jsAdd]
  | cons l ls ih =>
    cases he : lineEffect l with
    | addFailed b v =>
      cases b <;>
        simp only [List.filterMap_cons, failedValue, failedAnyValue, he, jsSum_cons,
          reduceCtorEq, ite_true, ite_false] <;>
        rw [← ih] <;>
        simp [jsAdd_assoc, jsAdd_comm, jsAdd_left_comm]
    | keep =>
      simp only [List.filterMap_cons, failedValue, failedAnyValue, he]
      exact ih
    | addReceived v =>
      simp only [List.filterMap_cons, failedValue, failedAnyValue, he]
      exact ih
    | addParsed v =>
      simp only [List.filterMap_cons, failedValue, failedAnyValue, he]
      exact ih
    | setParsedQueue v =>
      simp only [List.filterMap_cons, failedValue, failedAnyValue, he]
      exact ih
    | setAnalysisQueue v =>
      simp only [List.filterMap_cons, failedValue, failedAnyValue, he]
      exact ih

/-- C10: parsePrometheusText skips comment and blank lines; it sums the
received and parsed counters across all label sets; it buckets the failed
counter by reason label into no-match, decode-error, json-decode-error and
invalid-json-structure, with every other or unlabeled failure accumulated in
the other bucket; and the four named buckets plus the other bucket always sum
to the total failed count. -/
theorem parsePrometheusText_spec (text : String) (st : StatusTotals × StatusQueues)
    (line : String) (hskip : skipLine line = true) :
    processLine st line = st
    ∧ (parsePrometheusText text).1.received
        = jsSum ((jsSplitNewline text).filterMap receivedValue)
    ∧ (parsePrometheusText text).1.parsed
        = jsSum ((jsSplitNewline text).filterMap parsedValue)
    ∧ (parsePrometheusText text).1.failed_no_match
        = jsSum ((jsSplitNewline text).filterMap (failedValue .noMatch))
    ∧ (parsePrometheusText text).1.failed_decode
        = jsSum ((jsSplitNewline text).filterMap (failedValue .decodeErr))
    ∧ (parsePrometheusText text).1.failed_json_decode
        = jsSum ((jsSplitNewline text).filterMap (failedValue .jsonDecodeErr))
    ∧ (parsePrometheusText text).1.failed_invalid_json
        = jsSum ((jsSplitNewline text).filterMap (failedValue .invalidJson))
    ∧ (parsePrometheusText text).1.failed_other
        = jsSum ((jsSplitNewline text).filterMap (failedValue .otherReason))
    ∧ jsAdd (jsAdd (jsAdd (jsAdd (parsePrometheusText text).1.failed_no_match
          (parsePrometheusText text).1.failed_decode)
          (parsePrometheusText text).1.failed_json_decode)
          (parsePrometheusText text).1.failed_invalid_json)
          (parsePrometheusText text).1.failed_other
        = jsSum ((jsSplitNewline text).filterMap failedAnyValue) := by
  have hrecv := foldl_processLine_field (fun s => s.1.received) receivedValue
    processLine_received (jsSplitNewline text) (initTotals, initQueues)
  have hpar := foldl_processLine_field (fun s => s.1.parsed) parsedValue
    processLine_parsed (jsSplitNewline text) (initTotals, initQueues)
  have hb1 := foldl_processLine_field (fun s => s.1.failed_no_match) (failedValue .noMatch)
    processLine_failed_no_match (jsSplitNewline text) (initTotals, initQueues)
  have hb2 := foldl_processLine_field (fun s => s.1.failed_decode) (failedValue .decodeErr)
    processLine_failed_decode (jsSplitNewline text) (initTotals, initQueues)
  have hb3 := foldl_processLine_field (fun s => s.1.failed_json_decode) (failedValue .jsonDecodeErr)
    processLine_failed_json_decode (jsSplitNewline text) (initTotals, initQueues)
  have hb4 := foldl_processLine_field (fun s => s.1.failed_invalid_json) (failedValue .invalidJson)
    processLine_failed_invalid_json (jsSplitNewline text) (initTotals, initQueues)
  have hb5 := foldl_processLine_field (fun s => s.1.failed_other) (failedValue .otherReason)
    processLine_failed_other (jsSplitNewline text) (initTotals, initQueues)
  have hskip2 : processLine st line = st := by
    rw [processLine_eq]
    simp [lineEffect, hskip, applyEffect]
  refine ⟨hskip2, ?_, ?_, ?_, ?_, ?_, ?_, ?_, ?_⟩
  · rw [parsePrometheusText, hrecv]
    simp [initTotals, jsAdd_fin_zero_left]
  · rw [parsePrometheusText, hpar]
    simp [initTotals, jsAdd_fin_zero_left]
  · rw [parsePrometheusText, hb1]
    simp [initTotals, jsAdd_fin_zero_left]
  · rw [parsePrometheusText, hb2]
    simp [initTotals, jsAdd_fin_zero_left]
  · rw [parsePrometheusText, hb3]
    simp [initTotals, jsAdd_fin_zero_left]
  · rw [parsePrometheusText, hb4]
    simp [initTotals, jsAdd_fin_zero_left]
  · rw [parsePrometheusText, hb5]
    simp [initTotals, jsAdd_fin_zero_left]
  · rw [parsePrometheusText, hb1, hb2, hb3, hb4, hb5]
    simp only [initTotals, jsAdd_fin_zero_left]
    exact bucket_partition (jsSplitNewline text)

/-- C10 witness: the sample metrics text with two labeled received samples,
labeled and unlabeled failed samples, a comment line and a queue gauge. -/
theorem parsePrometheusText_spec_witness :
    skipLine "# HELP received" = true
    ∧ (processLine (initTotals, initQueues) "# HELP received" = (initTotals, initQueues)
      ∧ (parsePrometheusText sampleStatusText).1.received
          = jsSum ((jsSplitNewline sampleStatusText).filterMap receivedValue)
      ∧ (parsePrometheusText sampleStatusText).1.parsed
          = jsSum ((jsSplitNewline sampleStatusText).filterMap parsedValue)
      ∧ (parsePrometheusText sampleStatusText).1.failed_no_match
          = jsSum ((jsSplitNewline sampleStatusText).filterMap (failedValue .noMatch))
      ∧ (parsePrometheusText sampleStatusText).1.failed_decode
          = jsSum ((jsSplitNewline sampleStatusText).filterMap (failedValue .decodeErr))
      ∧ (parsePrometheusText sampleStatusText).1.failed_json_decode
          = jsSum ((jsSplitNewline sampleStatusText).filterMap (failedValue .jsonDecodeErr))
      ∧ (parsePrometheusText sampleStatusText).1.failed_invalid_json
          = jsSum ((jsSplitNewline sampleStatusText).filterMap (failedValue .invalidJson))
      ∧ (parsePrometheusText sampleStatusText).1.failed_other
          = jsSum ((jsSplitNewline sampleStatusText).filterMap (failedValue .otherReason))
      ∧ jsAdd (jsAdd (jsAdd (jsAdd (parsePrometheusText sampleStatusText).1.failed_no_match
            (parsePrometheusText sampleStatusText).1.failed_decode)
            (parsePrometheusText sampleStatusText).1.failed_json_decode)
            (parsePrometheusText sampleStatusText).1.failed_invalid_json)
            (parsePrometheusText sampleStatusText).1.failed_other
          = jsSum ((jsSplitNewline sampleStatusText).filterMap failedAnyValue)) :=
  ⟨by decide,
   parsePrometheusText_spec sampleStatusText (initTotals, initQueues)
     "# HELP received" (by decide)⟩

end StatusPage
